import Mathlib

/-!
Shallow embedding of the column auto-summarization and pivot logic of
`src/app.py` (CrossExcelAnalyzer).  Pandas series are modelled as
`List (Option v)` (with `none` for a missing cell), pandas dtypes as a
finite enumeration, floating point numbers as `ℚ` (with `ℝ` only where a
square root forces it), and the per-column dispatch loop, the categorical
bucketing policy, the temporal aggregation, the summary statistics and the
pivot-table button handler as Lean functions translated from the source.
-/

/-- Fuelled worker for `firstUniques`; the fuel dominates the list length, so
the structural recursion on the fuel realizes the length-decreasing recursion
while remaining kernel-computable. -/
def firstUniquesAux {α : Type} [DecidableEq α] : ℕ → List α → List α
  | _, [] => []
  | 0, _ :: _ => []
  | n + 1, a :: l => a :: firstUniquesAux n (l.filter (· ≠ a))

/-- Distinct elements of a list in order of first occurrence.  This models the
order in which `pandas` collects distinct values of an object column. -/
def firstUniques {α : Type} [DecidableEq α] (l : List α) : List α :=
  firstUniquesAux l.length l

/-- `pandas.Series.value_counts()` on the non-missing values of a column:
one `(value, count)` pair per distinct value, sorted by descending count
(deterministic stable order among ties). -/
def value_counts {α : Type} [DecidableEq α] (l : List α) : List (α × ℕ) :=
  List.insertionSort (fun p q : α × ℕ => q.2 ≤ p.2)
    ((firstUniques l).map (fun v => (v, l.count v)))

/-- `Series.nunique()`: number of distinct non-missing values. -/
def nunique {α : Type} [DecidableEq α] (xs : List (Option α)) : ℕ :=
  (firstUniques (xs.filterMap id)).length

/-- `TOP_N_FOR_OTHERS = 9` (src/app.py line 66): how many top values are kept
before collapsing the tail into the "その他" bucket. -/
def TOP_N_FOR_OTHERS : ℕ := 9

/-- `OTHERS_THRESHOLD = 0.2` (src/app.py line 67): the pie chart with an
"その他" bucket is used only when the bucket is below this share. -/
def OTHERS_THRESHOLD : ℚ := 2/10

/-- Reasons a categorical column is excluded from charting. -/
inductive ExclusionReason : Type
  | tooMany : ExclusionReason
  | tooFew : ExclusionReason
  deriving DecidableEq

/-- The verdict of the categorical branch of the column loop. -/
inductive CatChart : Type
  | Pie : List (String × ℕ) → CatChart
  | BucketedPie : List (String × ℕ) → CatChart
  | Bar : List (String × ℕ) → CatChart
  | Excluded : ExclusionReason → CatChart
  deriving DecidableEq

/-- The categorical branch of the per-column loop (src/app.py lines 106-186):
`n_unique = df[col].nunique()`, `counts = df[col].value_counts()`, then
pie for `1 < n_unique <= 10`, the "その他" bucketing attempt for
`10 < n_unique <= 20` (pie with an other bucket when `other_count > 0 and
other_percentage < OTHERS_THRESHOLD`, bar otherwise), and exclusion
otherwise. -/
def categoricalChart (xs : List (Option String)) : CatChart :=
  let vals := xs.filterMap id
  let n_unique := nunique xs
  let counts := value_counts vals
  if 1 < n_unique ∧ n_unique ≤ 10 then
    CatChart.Pie counts
  else if 10 < n_unique ∧ n_unique ≤ 20 then
    let total_count : ℕ := (counts.map Prod.snd).sum
    let top_n_counts := counts.take TOP_N_FOR_OTHERS
    let other_count : ℕ := ((counts.drop TOP_N_FOR_OTHERS).map Prod.snd).sum
    let other_percentage : ℚ := (other_count : ℚ) / (total_count : ℚ)
    if 0 < other_count ∧ other_percentage < OTHERS_THRESHOLD then
      CatChart.BucketedPie (top_n_counts ++ [("その他", other_count)])
    else
      CatChart.Bar counts
  else if 20 < n_unique then
    CatChart.Excluded ExclusionReason.tooMany
  else
    CatChart.Excluded ExclusionReason.tooFew

/-- The categorical policy exactly as the spec words it (claim C1): cases on
`n` with `n ≤ 1`, `2 ≤ n ≤ 10`, `11 ≤ n ≤ 20`, `n > 20`, with
`otherRatio = otherCount / totalNonMissing` where `totalNonMissing` is the
count of non-missing cells, and a strict comparison against `0.20`. -/
def categoricalChartSpec (xs : List (Option String)) : CatChart :=
  let vals := xs.filterMap id
  let n := nunique xs
  let counts := value_counts vals
  if n ≤ 1 then
    CatChart.Excluded ExclusionReason.tooFew
  else if 2 ≤ n ∧ n ≤ 10 then
    CatChart.Pie counts
  else if 11 ≤ n ∧ n ≤ 20 then
    let totalNonMissing : ℕ := vals.length
    let topNine := counts.take 9
    let otherCount : ℕ := ((counts.drop 9).map Prod.snd).sum
    let otherRatio : ℚ := (otherCount : ℚ) / (totalNonMissing : ℚ)
    if 0 < otherCount ∧ otherRatio < 2/10 then
      CatChart.BucketedPie (topNine ++ [("その他", otherCount)])
    else
      CatChart.Bar counts
  else
    CatChart.Excluded ExclusionReason.tooMany

/-- The pandas storage dtypes a column of the loaded frame can carry, plus a
few that exercise the fallthrough branch of the dispatch. -/
inductive DType : Type
  | int64 : DType
  | float64 : DType
  | complex128 : DType
  | boolT : DType
  | datetime64ns : DType
  | datetime64tz : DType
  | timedelta64 : DType
  | objectT : DType
  | stringT : DType
  | categoryT : DType
  | periodT : DType
  deriving DecidableEq

/-- `pd.api.types.is_numeric_dtype`: true on integer, float, complex and
boolean dtypes. -/
def is_numeric_dtype : DType → Bool
  | DType.int64 => true
  | DType.float64 => true
  | DType.complex128 => true
  | DType.boolT => true
  | _ => false

/-- `pd.api.types.is_string_dtype`. -/
def is_string_dtype : DType → Bool
  | DType.stringT => true
  | DType.objectT => true
  | _ => false

/-- `pd.api.types.is_object_dtype`. -/
def is_object_dtype : DType → Bool
  | DType.objectT => true
  | _ => false

/-- `pd.api.types.is_datetime64_any_dtype`: datetime64, tz-aware included. -/
def is_datetime64_any_dtype : DType → Bool
  | DType.datetime64ns => true
  | DType.datetime64tz => true
  | _ => false

/-- `pd.api.types.is_bool_dtype`: the check `Series.describe()` uses to route
a boolean series to the categorical description (whose index is
count/unique/top/freq) instead of the numeric one (count/mean/std/min/…). -/
def is_bool_dtype : DType → Bool
  | DType.boolT => true
  | _ => false

/-- Semantic column kinds assigned by the dispatch chain. -/
inductive ColumnKind : Type
  | numeric : ColumnKind
  | categorical : ColumnKind
  | temporal : ColumnKind
  | unrecognized : ColumnKind
  deriving DecidableEq

/-- The dtype dispatch chain of the column loop, in the order the source
checks it (src/app.py lines 75, 106, 189, 207): numeric first, then
string/object, then datetime, else the unrecognized fallthrough. -/
def classifyColumn (d : DType) : ColumnKind :=
  if is_numeric_dtype d then ColumnKind.numeric
  else if is_string_dtype d || is_object_dtype d then ColumnKind.categorical
  else if is_datetime64_any_dtype d then ColumnKind.temporal
  else ColumnKind.unrecognized

/-- The classifier in the priority order the spec words it (claim C8):
numeric, then date/time, then text/string/mixed-object, else unrecognized. -/
def classifyColumnSpec (d : DType) : ColumnKind :=
  if is_numeric_dtype d then ColumnKind.numeric
  else if is_datetime64_any_dtype d then ColumnKind.temporal
  else if is_string_dtype d || is_object_dtype d then ColumnKind.categorical
  else ColumnKind.unrecognized

/-- The datetime branch (src/app.py line 192):
`df[col].dt.date.value_counts().sort_index()`.  A datetime cell is a pair
`(date, timeOfDay)`; `.dt.date` keeps the first component, `value_counts`
counts occurrences per distinct date and `sort_index` orders the result
ascending by date. -/
def temporalAggregate (xs : List (Option (ℕ × ℕ))) : List (ℕ × ℕ) :=
  let dates := (xs.filterMap id).map Prod.fst
  (List.insertionSort (· ≤ ·) (firstUniques dates)).map (fun d => (d, dates.count d))

/-- The non-missing cells of a numeric series, in row order. -/
def nonMissing (xs : List (Option ℚ)) : List ℚ :=
  xs.filterMap id

/-- The non-missing cells sorted ascending (pandas quantile machinery). -/
def sortedVals (xs : List (Option ℚ)) : List ℚ :=
  List.insertionSort (· ≤ ·) (nonMissing xs)

/-- `describe()['count']`: number of non-missing cells. -/
def seriesCount (xs : List (Option ℚ)) : ℕ :=
  (nonMissing xs).length

/-- `describe()['mean']`: arithmetic mean of the non-missing cells, NaN
(modelled `none`) when there are none. -/
def seriesMean (xs : List (Option ℚ)) : Option ℚ :=
  if seriesCount xs = 0 then none
  else some ((nonMissing xs).sum / (seriesCount xs : ℚ))

/-- Median with linear interpolation of the two middle elements, as pandas
computes the 50% quantile of a nonempty sample. -/
def medianOfList (l : List ℚ) : ℚ :=
  let s := List.insertionSort (· ≤ ·) l
  let m := s.length
  if m % 2 = 1 then s.getD (m / 2) 0
  else (s.getD (m / 2 - 1) 0 + s.getD (m / 2) 0) / 2

/-- `describe()['50%']`: the median of the non-missing cells. -/
def seriesMedian (xs : List (Option ℚ)) : Option ℚ :=
  if seriesCount xs = 0 then none
  else some (medianOfList (nonMissing xs))

/-- `describe()['min']`. -/
def seriesMin (xs : List (Option ℚ)) : Option ℚ :=
  (sortedVals xs).head?

/-- `describe()['max']`. -/
def seriesMax (xs : List (Option ℚ)) : Option ℚ :=
  (sortedVals xs).getLast?

/-- Sample variance with `ddof = 1` (the square of the `describe()['std']`
value); NaN (modelled `none`) when fewer than two non-missing cells. -/
def seriesVar (xs : List (Option ℚ)) : Option ℚ :=
  let v := nonMissing xs
  if v.length ≤ 1 then none
  else some (((v.map (fun x => (x - v.sum / (v.length : ℚ)) ^ 2)).sum) / ((v.length : ℚ) - 1))

/-- `describe()['std']`: sample standard deviation, the square root of the
sample variance. -/
noncomputable def seriesStd (xs : List (Option ℚ)) : Option ℝ :=
  (seriesVar xs).map (fun q => Real.sqrt (q : ℝ))

/-- The record the numeric branch appends to `numeric_summary_list`
(src/app.py lines 80-89): mean, median (50%), min, max, std, count. -/
structure SummaryStat : Type where
  mean : Option ℚ
  median : Option ℚ
  minValue : Option ℚ
  maxValue : Option ℚ
  std : Option ℝ
  count : ℕ

/-- The numeric branch of the column loop: `df[col].describe()` read at the
keys `mean`, `50%`, `min`, `max`, `std`, `count`. -/
noncomputable def describeSeries (xs : List (Option ℚ)) : SummaryStat :=
  { mean := seriesMean xs
    median := seriesMedian xs
    minValue := seriesMin xs
    maxValue := seriesMax xs
    std := seriesStd xs
    count := seriesCount xs }

/-- The aggregation functions offered by the pivot UI (src/app.py line 260). -/
inductive AggFunc : Type
  | sum : AggFunc
  | mean : AggFunc
  | count : AggFunc
  | median : AggFunc
  deriving DecidableEq

/-- `agg_func_options` (src/app.py line 260): label shown in the selectbox
paired with the pandas aggregation function name. -/
def agg_func_options : List (String × String) :=
  [("合計", "sum"), ("平均", "mean"), ("カウント", "count"), ("中央値", "median")]

/-- The pandas aggregation function designated by each name appearing in
`agg_func_options`. -/
def aggFuncOfName : String → Option AggFunc
  | "sum" => some AggFunc.sum
  | "mean" => some AggFunc.mean
  | "count" => some AggFunc.count
  | "median" => some AggFunc.median
  | _ => none

/-- Application of an aggregation function to the values of one nonempty
group, as `pd.pivot_table`'s `aggfunc` does; `count` counts the rows. -/
def aggApply : AggFunc → List ℚ → ℚ
  | AggFunc.sum, l => l.sum
  | AggFunc.mean, l => l.sum / (l.length : ℚ)
  | AggFunc.count, l => (l.length : ℕ)
  | AggFunc.median, l => medianOfList l

/-- One data row as seen by the pivot: its row-key cells (a single value of
type `κ`, a tuple when several row keys are selected), its column-key cells
(`γ`, likewise), and its value cell. -/
structure PivotRow (κ γ : Type) : Type where
  rowKey : κ
  colKey : γ
  value : ℚ

/-- The value cells of the group of a `(rowKey, colKey)` combination. -/
def groupValues {κ γ : Type} [DecidableEq κ] [DecidableEq γ]
    (data : List (PivotRow κ γ)) (r : κ) (c : γ) : List ℚ :=
  (data.filter (fun x => x.rowKey = r ∧ x.colKey = c)).map PivotRow.value

/-- Aggregation of one group before `fill_value` is applied: `none` (pandas
NaN) for a combination with no matching data rows. -/
def aggregateGroup (agg : AggFunc) (g : List ℚ) : Option ℚ :=
  if g.isEmpty then none else some (aggApply agg g)

/-- One cell of the pivot result: the aggregated group, with `fill_value=0`
replacing the NaN of an empty combination (src/app.py line 275). -/
def cellValue {κ γ : Type} [DecidableEq κ] [DecidableEq γ]
    (data : List (PivotRow κ γ)) (agg : AggFunc) (r : κ) (c : γ) : ℚ :=
  (aggregateGroup agg (groupValues data r c)).getD 0

/-- `pd.pivot_table(df, index=…, columns=…, values=…, aggfunc=…,
fill_value=0)`: one output row per distinct row-key combination present in
the data, one cell per distinct column-key combination present in the data,
empty combinations filled with zero. -/
def pivot_table {κ γ : Type} [DecidableEq κ] [DecidableEq γ]
    (data : List (PivotRow κ γ)) (agg : AggFunc) : List (κ × List (γ × ℚ)) :=
  (firstUniques (data.map PivotRow.rowKey)).map (fun r =>
    (r, (firstUniques (data.map PivotRow.colKey)).map (fun c =>
      (c, cellValue data agg r c))))

/-- The pivot configuration stored in `st.session_state.pivot_config`. -/
structure PivotConfig : Type where
  index : List String
  columns : List String
  values : String
  agg_label : String
  deriving DecidableEq

/-- The session state touched by the pivot button handler:
`st.session_state.pivot_df` and `st.session_state.pivot_config`. -/
structure PivotState : Type where
  pivot_df : Option (List (String × List (String × ℚ)))
  pivot_config : Option PivotConfig

/-- The inline messages the pivot button handler can emit. -/
inductive UIMessage : Type
  | warnRowsValuesRequired : UIMessage
  deriving DecidableEq

/-- The pivot button handler (src/app.py lines 266-285): when both a row
selection and a value column are present it computes the pivot table and
stores it (with its configuration) in the session state; otherwise it emits
the inline warning 「行」と「値」は必須です and runs nothing.  The rows of
`data` carry the key cells already extracted from the selected columns. -/
def pivotButtonClick (st : PivotState) (data : List (PivotRow String String))
    (index_cols : List String) (column_cols : List String)
    (value_col : Option String) (agg_label : String) :
    PivotState × Option UIMessage :=
  if index_cols ≠ [] ∧ value_col.isSome then
    let agg_func := ((agg_func_options.lookup agg_label).getD "sum")
    let agg := (aggFuncOfName agg_func).getD AggFunc.sum
    ({ pivot_df := some (pivot_table data agg)
       pivot_config := some
         { index := index_cols
           columns := column_cols
           values := value_col.getD ""
           agg_label := agg_label } }, none)
  else
    (st, some UIMessage.warnRowsValuesRequired)

/-- A column of the loaded frame, as the per-column loop sees it: its storage
dtype together with its cells in each of the representations the three typed
branches read. -/
structure DataColumn : Type where
  dtype : DType
  strData : List (Option String)
  dateData : List (Option (ℕ × ℕ))
  numData : List (Option ℚ)

/-- What the loop body produces for one column.  `histogramOnly` is the
numeric branch whose statistics lookup failed: the histogram is drawn but no
row is appended to the numeric summary. -/
inductive ColumnRender : Type
  | histogramWithStats : SummaryStat → ColumnRender
  | histogramOnly : ColumnRender
  | categoricalRender : CatChart → ColumnRender
  | temporalRender : List (ℕ × ℕ) → ColumnRender
  | excludedUnrecognized : ColumnRender

/-- The per-column dispatch of the loop (src/app.py lines 75-209): numeric
columns get a histogram plus an entry in the numeric summary, string/object
columns run the categorical policy, datetime columns the temporal
aggregation, everything else is recorded as excluded for unrecognized
dtype.  A boolean column passes `is_numeric_dtype` and enters the numeric
branch, but `describe()` routes a boolean series to the categorical
description, so reading `desc_stats['mean']` (line 83) raises a KeyError
that the bare `except Exception: pass` of lines 90-91 swallows: the stats
row is skipped and only the histogram is drawn. -/
noncomputable def renderColumn (c : DataColumn) : ColumnRender :=
  if is_numeric_dtype c.dtype then
    if is_bool_dtype c.dtype then
      ColumnRender.histogramOnly
    else
      ColumnRender.histogramWithStats (describeSeries c.numData)
  else if is_string_dtype c.dtype || is_object_dtype c.dtype then
    ColumnRender.categoricalRender (categoricalChart c.strData)
  else if is_datetime64_any_dtype c.dtype then
    ColumnRender.temporalRender (temporalAggregate c.dateData)
  else
    ColumnRender.excludedUnrecognized

/-- Concrete column used to witness the bucketing branch: one value occurring
thirty times and ten further values occurring once each (`n_unique = 11`,
`other_count = 2`, `other_percentage = 1/20 < 1/5`). -/
def bucketedExample : List (Option String) :=
  List.replicate 30 (some "a") ++
    (["b", "c", "d", "e", "f", "g", "h", "i", "j", "k"].map some)

/-- Concrete rows used to witness the pivot zero-fill: the combination
`(1, 20)` is present in both key domains but matched by no data row. -/
def pivotExample : List (PivotRow ℕ ℕ) :=
  [⟨1, 10, 10⟩, ⟨2, 20, 5⟩]

/- ------------------------------------------------------------------ -/
/- Supporting lemmas                                                   -/
/- ------------------------------------------------------------------ -/

theorem firstUniquesAux_succ_le {α : Type} [DecidableEq α] :
    ∀ (n : ℕ) (l : List α), l.length ≤ n →
      firstUniquesAux (n + 1) l = firstUniquesAux n l
  | n, [], _ => by cases n <;> rfl
  | n, a :: l, h => by
    cases n with
    | zero => simp at h
    | succ n =>
      show a :: firstUniquesAux (n + 1) (l.filter (· ≠ a))
          = a :: firstUniquesAux n (l.filter (· ≠ a))
      have hlen : (l.filter (· ≠ a)).length ≤ n :=
        le_trans (List.length_filter_le _ _) (by simpa using h)
      rw [firstUniquesAux_succ_le n (l.filter (· ≠ a)) hlen]

theorem firstUniquesAux_add {α : Type} [DecidableEq α] :
    ∀ (k n : ℕ) (l : List α), l.length ≤ n →
      firstUniquesAux (n + k) l = firstUniquesAux n l
  | 0, _, _, _ => rfl
  | k + 1, n, l, h => by
    have h1 : firstUniquesAux (n + k + 1) l = firstUniquesAux (n + k) l :=
      firstUniquesAux_succ_le (n + k) l (le_trans h (Nat.le_add_right n k))
    have h2 : firstUniquesAux (n + k) l = firstUniquesAux n l :=
      firstUniquesAux_add k n l h
    calc firstUniquesAux (n + (k + 1)) l
        = firstUniquesAux (n + k + 1) l := by ring_nf
      _ = firstUniquesAux n l := h1.trans h2

theorem firstUniques_nil {α : Type} [DecidableEq α] :
    firstUniques ([] : List α) = [] := rfl

theorem firstUniques_cons {α : Type} [DecidableEq α] (a : α) (l : List α) :
    firstUniques (a :: l) = a :: firstUniques (l.filter (· ≠ a)) := by
  show a :: firstUniquesAux l.length (l.filter (· ≠ a))
      = a :: firstUniquesAux (l.filter (· ≠ a)).length (l.filter (· ≠ a))
  obtain ⟨k, hk⟩ : ∃ k, l.length = (l.filter (· ≠ a)).length + k :=
    ⟨l.length - (l.filter (· ≠ a)).length, by
      have := List.length_filter_le (fun x => x ≠ a) l
      omega⟩
  rw [hk, firstUniquesAux_add k _ _ (le_refl _)]

theorem mem_firstUniques {α : Type} [DecidableEq α] :
    ∀ (l : List α) (x : α), x ∈ firstUniques l ↔ x ∈ l
  | [] , x => by rw [firstUniques_nil]
  | a :: l, x => by
    rw [firstUniques_cons]
    by_cases hxa : x = a
    · subst hxa; simp
    · simp only [List.mem_cons, hxa, false_or]
      rw [mem_firstUniques (l.filter (· ≠ a)) x]
      simp [List.mem_filter, hxa]
termination_by l => l.length
decreasing_by
  simp only [List.length_cons]
  exact Nat.lt_succ_of_le (List.length_filter_le _ _)

theorem firstUniques_nodup {α : Type} [DecidableEq α] :
    ∀ (l : List α), (firstUniques l).Nodup
  | [] => by rw [firstUniques_nil]; exact List.nodup_nil
  | a :: l => by
    rw [firstUniques_cons]
    refine List.nodup_cons.mpr ⟨?_, firstUniques_nodup (l.filter (· ≠ a))⟩
    intro hmem
    have := (mem_firstUniques _ a).mp hmem
    simp [List.mem_filter] at this
termination_by l => l.length
decreasing_by
  simp only [List.length_cons]
  exact Nat.lt_succ_of_le (List.length_filter_le _ _)

/-- Summing the multiplicity of each distinct value recovers the length of
the list: the counts of a `value_counts` partition the rows. -/
theorem sum_counts_firstUniques {α : Type} [DecidableEq α] :
    ∀ (l : List α), ((firstUniques l).map (fun v => l.count v)).sum = l.length
  | [] => by rw [firstUniques_nil]; rfl
  | a :: l => by
    rw [firstUniques_cons]
    have hcongr : ∀ v ∈ firstUniques (l.filter (· ≠ a)),
        (a :: l).count v = (l.filter (· ≠ a)).count v := by
      intro v hv
      have hvmem := (mem_firstUniques _ v).mp hv
      have hvne : v ≠ a := by
        have := List.mem_filter.mp hvmem
        simpa using this.2
      rw [List.count_cons_of_ne hvne]
      exact (List.count_filter (by simpa using hvne)).symm
    have hmap : (firstUniques (l.filter (· ≠ a))).map (fun v => (a :: l).count v)
        = (firstUniques (l.filter (· ≠ a))).map (fun v => (l.filter (· ≠ a)).count v) :=
      List.map_congr_left hcongr
    simp only [List.map_cons, List.sum_cons, hmap,
      sum_counts_firstUniques (l.filter (· ≠ a))]
    rw [List.count_cons_self]
    have h1 : l.count a = l.countP (· == a) := List.count_eq_countP ..
    have h2 : (l.filter (fun x => decide (x ≠ a))).length
        = l.countP (fun x => decide (x ≠ a)) :=
      (List.countP_eq_length_filter _ _).symm
    have h3 := List.length_eq_countP_add_countP (· == a) l
    have h4 : l.countP (fun x => decide (x ≠ a))
        = l.countP (fun x => decide ¬(x == a) = true) := by
      apply List.countP_congr
      intro b _
      by_cases hb : b = a <;> simp [hb]
    simp only [List.length_cons]
    omega
termination_by l => l.length
decreasing_by
  simp only [List.length_cons]
  exact Nat.lt_succ_of_le (List.length_filter_le _ _)

theorem value_counts_perm {α : Type} [DecidableEq α] (l : List α) :
    (value_counts l).Perm ((firstUniques l).map (fun v => (v, l.count v))) :=
  List.perm_insertionSort _ _

/-- The counts displayed by `value_counts` partition the rows: their sum is
the number of non-missing values. -/
theorem sum_snd_value_counts {α : Type} [DecidableEq α] (l : List α) :
    ((value_counts l).map Prod.snd).sum = l.length := by
  have hperm := (value_counts_perm l).map Prod.snd
  rw [hperm.sum_eq, List.map_map]
  exact sum_counts_firstUniques l

theorem length_value_counts {α : Type} [DecidableEq α] (l : List α) :
    (value_counts l).length = (firstUniques l).length := by
  rw [(value_counts_perm l).length_eq, List.length_map]

/-- Every count displayed by `value_counts` is the multiplicity of a value
actually present in the data, hence strictly positive. -/
theorem pos_of_mem_value_counts {α : Type} [DecidableEq α] (l : List α)
    (p : α × ℕ) (hp : p ∈ value_counts l) : 0 < p.2 := by
  have hmem := (value_counts_perm l).mem_iff.mp hp
  rcases List.mem_map.mp hmem with ⟨v, hv, hveq⟩
  subst hveq
  exact List.count_pos_iff.mpr ((mem_firstUniques l v).mp hv)

/-- A list of positive naturals is at least as long as its sum is large. -/
theorem length_le_sum_of_one_le :
    ∀ (l : List ℕ), (∀ x ∈ l, 1 ≤ x) → l.length ≤ l.sum
  | [], _ => Nat.le_refl 0
  | a :: l, h => by
    have hl := length_le_sum_of_one_le l (fun x hx => h x (List.mem_cons_of_mem _ hx))
    have ha := h a (List.mem_cons_self a l)
    simp only [List.length_cons, List.sum_cons]
    omega

/-- In the 11-to-20 cardinality window the categorical branch reduces to the
guarded choice between the bucketed pie and the bar chart. -/
theorem categoricalChart_bucket_branch (xs : List (Option String))
    (h10 : 10 < nunique xs) (h20 : nunique xs ≤ 20) :
    categoricalChart xs =
      (if 0 < (((value_counts (xs.filterMap id)).drop 9).map Prod.snd).sum ∧
          ((((value_counts (xs.filterMap id)).drop 9).map Prod.snd).sum : ℚ) /
            (((xs.filterMap id).length : ℕ) : ℚ) < 2/10
       then CatChart.BucketedPie ((value_counts (xs.filterMap id)).take 9 ++
              [("その他", (((value_counts (xs.filterMap id)).drop 9).map Prod.snd).sum)])
       else CatChart.Bar (value_counts (xs.filterMap id))) := by
  simp only [categoricalChart, TOP_N_FOR_OTHERS, OTHERS_THRESHOLD]
  rw [sum_snd_value_counts]
  rw [if_neg (by omega), if_pos ⟨h10, h20⟩]

/-- C1: the categorical branch realizes exactly the spec policy — `n ≤ 1`
excluded, `2 ≤ n ≤ 10` a plain pie over all (value, count) pairs (`n = 10`
included), `11 ≤ n ≤ 20` the bucketing logic over the top 9 values by count
with `otherRatio = otherCount / totalNonMissing` compared strictly against
`0.20` (`otherRatio = 0.20` giving the bar chart), and `n > 20` excluded. -/
theorem C1_categorical_policy (xs : List (Option String)) :
    categoricalChart xs = categoricalChartSpec xs := by
  simp only [categoricalChart, categoricalChartSpec, TOP_N_FOR_OTHERS, OTHERS_THRESHOLD]
  rw [sum_snd_value_counts]
  split_ifs <;> first | rfl | omega

/-- C2: whenever the categorical branch produces the bucketed pie (top 9
values plus the synthetic "その他" bucket), the displayed counts, "その他"
included, sum to the number of non-missing values of the column. -/
theorem C2_bucketed_sum (xs : List (Option String)) (l : List (String × ℕ))
    (h : categoricalChart xs = CatChart.BucketedPie l) :
    (l.map Prod.snd).sum = (xs.filterMap id).length := by
  simp only [categoricalChart, TOP_N_FOR_OTHERS, OTHERS_THRESHOLD] at h
  split_ifs at h
  injection h with h1
  subst h1
  simp only [List.map_append, List.sum_append, List.map_cons, List.sum_cons,
    List.map_nil, List.sum_nil]
  have hsplit : ((value_counts (xs.filterMap id)).map Prod.snd).sum
      = (((value_counts (xs.filterMap id)).take 9).map Prod.snd).sum
        + (((value_counts (xs.filterMap id)).drop 9).map Prod.snd).sum := by
    conv_lhs => rw [← List.take_append_drop 9 (value_counts (xs.filterMap id))]
    simp [List.map_append, List.sum_append]
  have htot := sum_snd_value_counts (xs.filterMap id)
  omega

/-- On the concrete eleven-valued column the bucketing branch fires and
collapses the two long-tail values into the "その他" bucket. -/
theorem categoricalChart_bucketedExample :
    categoricalChart bucketedExample =
      CatChart.BucketedPie [("a", 30), ("b", 1), ("c", 1), ("d", 1), ("e", 1),
        ("f", 1), ("g", 1), ("h", 1), ("i", 1), ("その他", 2)] := by
  rw [categoricalChart_bucket_branch bucketedExample (by decide) (by decide)]
  have hsum : (((value_counts (bucketedExample.filterMap id)).drop 9).map
      Prod.snd).sum = 2 := by decide
  have hlen : (bucketedExample.filterMap id).length = 40 := by decide
  rw [hsum, hlen]
  rw [if_pos ⟨by norm_num, by norm_num⟩]
  decide

/-- Witness for C2 on a concrete column with 11 distinct values. -/
theorem C2_bucketed_sum_witness :
    (([("a", 30), ("b", 1), ("c", 1), ("d", 1), ("e", 1), ("f", 1), ("g", 1),
        ("h", 1), ("i", 1), ("その他", 2)] : List (String × ℕ)).map Prod.snd).sum
      = (bucketedExample.filterMap id).length :=
  C2_bucketed_sum bucketedExample _ categoricalChart_bucketedExample

/-- C9: in the 11-to-20 cardinality window the "その他" tail holds at least
`n - 9 ≥ 2` values of positive count, so `other_count > 0` always holds
there and the choice between the bucketed pie and the bar chart is decided
by the ratio test alone. -/
theorem C9_other_count_positive (xs : List (Option String))
    (h10 : 10 < nunique xs) (h20 : nunique xs ≤ 20) :
    2 ≤ (((value_counts (xs.filterMap id)).drop 9).map Prod.snd).sum ∧
      (categoricalChart xs =
          CatChart.BucketedPie ((value_counts (xs.filterMap id)).take 9 ++
            [("その他", (((value_counts (xs.filterMap id)).drop 9).map Prod.snd).sum)])
        ↔ ((((value_counts (xs.filterMap id)).drop 9).map Prod.snd).sum : ℚ) /
            ((xs.filterMap id).length : ℚ) < 2/10) := by
  have hlen : (value_counts (xs.filterMap id)).length = nunique xs :=
    length_value_counts (xs.filterMap id)
  have hdrop : ((value_counts (xs.filterMap id)).drop 9).length
      = (value_counts (xs.filterMap id)).length - 9 := List.length_drop ..
  have hall : ∀ x ∈ ((value_counts (xs.filterMap id)).drop 9).map Prod.snd, 1 ≤ x := by
    intro x hx
    rcases List.mem_map.mp hx with ⟨p, hp, rfl⟩
    exact pos_of_mem_value_counts _ p (List.mem_of_mem_drop hp)
  have hlensum := length_le_sum_of_one_le _ hall
  have hmaplen : (((value_counts (xs.filterMap id)).drop 9).map Prod.snd).length
      = ((value_counts (xs.filterMap id)).drop 9).length := List.length_map ..
  have h2 : 2 ≤ (((value_counts (xs.filterMap id)).drop 9).map Prod.snd).sum := by
    omega
  refine ⟨h2, ?_⟩
  rw [categoricalChart_bucket_branch xs h10 h20]
  by_cases hr : ((((value_counts (xs.filterMap id)).drop 9).map Prod.snd).sum : ℚ) /
      ((xs.filterMap id).length : ℚ) < 2/10
  · rw [if_pos ⟨by omega, hr⟩]
    exact iff_of_true rfl hr
  · rw [if_neg (fun hg => hr hg.2)]
    exact iff_of_false (fun heq => CatChart.noConfusion heq) hr

/-- Witness for C9 on a concrete column with 11 distinct values. -/
theorem C9_other_count_positive_witness :
    2 ≤ (((value_counts (bucketedExample.filterMap id)).drop 9).map Prod.snd).sum ∧
      (categoricalChart bucketedExample =
          CatChart.BucketedPie ((value_counts (bucketedExample.filterMap id)).take 9 ++
            [("その他", (((value_counts (bucketedExample.filterMap id)).drop 9).map Prod.snd).sum)])
        ↔ ((((value_counts (bucketedExample.filterMap id)).drop 9).map Prod.snd).sum : ℚ) /
            ((bucketedExample.filterMap id).length : ℚ) < 2/10) :=
  C9_other_count_positive bucketedExample (by decide) (by decide)

/-- C8: the dtype dispatch chain computes exactly the priority classification
the spec states (numeric, then date/time, then text/string/object, else
unrecognized), and any dtype matching none of the three predicates falls
through to the unrecognized verdict instead of failing. -/
theorem C8_classifier_priority :
    (∀ d : DType, classifyColumn d = classifyColumnSpec d) ∧
    (∀ d : DType, is_numeric_dtype d = false →
      (is_string_dtype d || is_object_dtype d) = false →
      is_datetime64_any_dtype d = false →
      classifyColumn d = ColumnKind.unrecognized) := by
  constructor
  · intro d
    cases d <;> rfl
  · intro d h1 h2 h3
    simp [classifyColumn, h1, h2, h3]

/-- Witness for C8: a timedelta column is classified as unrecognized. -/
theorem C8_classifier_priority_witness :
    classifyColumn DType.timedelta64 = ColumnKind.unrecognized :=
  C8_classifier_priority.2 DType.timedelta64 rfl rfl rfl

/-- C10 counterexample: a concrete boolean column enters the numeric branch
but produces no numeric summary record — `describe()` describes a boolean
series categorically, the KeyError on the mean is swallowed, and the stats
row is skipped — refuting the claimed histogram-plus-summary rendering. -/
theorem C10_counterexample :
    renderColumn ⟨DType.boolT, [], [], [some 1, some 0]⟩ = ColumnRender.histogramOnly ∧
    renderColumn ⟨DType.boolT, [], [], [some 1, some 0]⟩
      ≠ ColumnRender.histogramWithStats (describeSeries [some 1, some 0]) := by
  constructor
  · simp [renderColumn, is_numeric_dtype, is_bool_dtype]
  · simp [renderColumn, is_numeric_dtype, is_bool_dtype]

/-- C10 (amended): boolean dtypes satisfy the numeric predicate, which is
tested first, so a boolean column is classified numeric and rendered in the
numeric branch as a histogram, never reaching the categorical or
unrecognized paths — but it receives no numeric summary statistics, because
the statistics lookup on its categorical `describe()` output fails and the
summary row is skipped. -/
theorem C10_bool_is_numeric :
    is_numeric_dtype DType.boolT = true ∧
    classifyColumn DType.boolT = ColumnKind.numeric ∧
    (∀ c : DataColumn, c.dtype = DType.boolT →
      renderColumn c = ColumnRender.histogramOnly) := by
  refine ⟨rfl, rfl, ?_⟩
  intro c hc
  simp [renderColumn, hc, is_numeric_dtype, is_bool_dtype]

/-- Witness for C10 (amended) on a concrete boolean column. -/
theorem C10_bool_is_numeric_witness :
    renderColumn ⟨DType.boolT, [], [], [some 1, some 0]⟩ = ColumnRender.histogramOnly :=
  C10_bool_is_numeric.2.2 ⟨DType.boolT, [], [], [some 1, some 0]⟩ rfl

/-- C7: the datetime branch yields one `(date, count)` pair per distinct
calendar date present in the non-missing data, sorted strictly ascending by
date, each count being the positive number of rows on that date (so no
zero-count date is synthesized), with the time-of-day component discarded;
and on the dates 2024-01-01, 2024-01-01, 2024-01-03 it yields exactly
[(2024-01-01, 2), (2024-01-03, 1)]. -/
theorem C7_temporal_series :
    (∀ xs : List (Option (ℕ × ℕ)),
      List.Pairwise (fun p q : ℕ × ℕ => p.1 < q.1) (temporalAggregate xs) ∧
      (∀ d : ℕ, (∃ k, (d, k) ∈ temporalAggregate xs)
        ↔ d ∈ (xs.filterMap id).map Prod.fst) ∧
      (∀ p ∈ temporalAggregate xs,
        p.2 = ((xs.filterMap id).map Prod.fst).count p.1 ∧ 0 < p.2) ∧
      temporalAggregate (xs.map (Option.map (fun q => (q.1, 0)))) = temporalAggregate xs) ∧
    temporalAggregate [some (20240101, 9), some (20240101, 17), some (20240103, 0)]
      = [(20240101, 2), (20240103, 1)] := by
  constructor
  · intro xs
    have hdates : ((xs.map (Option.map (fun q : ℕ × ℕ => (q.1, 0)))).filterMap id).map Prod.fst
        = (xs.filterMap id).map Prod.fst := by
      induction xs with
      | nil => rfl
      | cons o t ih =>
        cases o with
        | none => simpa using ih
        | some v => simpa using ih
    have hperm := List.perm_insertionSort (· ≤ ·)
      (firstUniques ((xs.filterMap id).map Prod.fst))
    have hsorted : List.Sorted (· ≤ ·)
        (List.insertionSort (· ≤ ·) (firstUniques ((xs.filterMap id).map Prod.fst))) :=
      List.sorted_insertionSort _ _
    have hnodup : (List.insertionSort (· ≤ ·)
        (firstUniques ((xs.filterMap id).map Prod.fst))).Nodup :=
      hperm.nodup_iff.mpr (firstUniques_nodup _)
    have hlt := hsorted.lt_of_le hnodup
    have hmem : ∀ d : ℕ,
        d ∈ List.insertionSort (· ≤ ·) (firstUniques ((xs.filterMap id).map Prod.fst))
          ↔ d ∈ (xs.filterMap id).map Prod.fst := by
      intro d
      rw [hperm.mem_iff]
      exact mem_firstUniques _ d
    refine ⟨?_, ?_, ?_, ?_⟩
    · show List.Pairwise _ (List.map _ _)
      rw [List.pairwise_map]
      exact hlt
    · intro d
      constructor
      · rintro ⟨k, hk⟩
        rcases List.mem_map.mp hk with ⟨a, ha, haeq⟩
        have : a = d := congrArg Prod.fst haeq
        subst this
        exact (hmem a).mp ha
      · intro hd
        exact ⟨((xs.filterMap id).map Prod.fst).count d,
          List.mem_map.mpr ⟨d, (hmem d).mpr hd, rfl⟩⟩
    · intro p hp
      rcases List.mem_map.mp hp with ⟨a, ha, haeq⟩
      subst haeq
      refine ⟨rfl, ?_⟩
      exact List.count_pos_iff.mpr ((hmem a).mp ha)
    · show (List.insertionSort _ (firstUniques _)).map _ = _
      rw [hdates]
      rfl
  · have hsteps : temporalAggregate
        [some ((20240101 : ℕ), (9 : ℕ)), some (20240101, 17), some (20240103, 0)]
        = (List.insertionSort (· ≤ ·) (firstUniques [20240101, 20240101, 20240103])).map
            (fun d => (d, ([20240101, 20240101, 20240103] : List ℕ).count d)) := rfl
    rw [hsteps]
    decide

/-- Witness for C7: the count entry of 2024-01-01 in the concrete series. -/
theorem C7_temporal_series_witness :
    ((20240101 : ℕ), (2 : ℕ)).2
        = ((([some ((20240101 : ℕ), (9 : ℕ)), some (20240101, 17),
            some (20240103, 0)] : List (Option (ℕ × ℕ))).filterMap id).map
            Prod.fst).count ((20240101 : ℕ), (2 : ℕ)).1 ∧
      0 < ((20240101 : ℕ), (2 : ℕ)).2 :=
  (C7_temporal_series.1 [some (20240101, 9), some (20240101, 17),
    some (20240103, 0)]).2.2.1 (20240101, 2) (by decide)

/-- C6: the numeric branch produces exactly the statistics mean, median
(50th percentile), min, max, standard deviation and non-missing count,
computed ignoring missing cells, giving mean 3, median 3, min 1, max 5 on
the series 1..5; and on an all-missing column it still produces a record
(count 0, undefined fields) instead of raising, so the worst the caller can
do is skip the row. -/
theorem C6_numeric_summary :
    describeSeries [some 1, some 2, some 3, some 4, some 5]
      = { mean := some 3, median := some 3, minValue := some 1, maxValue := some 5,
          std := some (Real.sqrt ((5/2 : ℚ) : ℝ)), count := 5 } ∧
    (∀ xs : List (Option ℚ), describeSeries xs = describeSeries ((nonMissing xs).map some)) ∧
    (∀ xs : List (Option ℚ), (∀ x ∈ xs, x = none) →
      describeSeries xs
        = { mean := none, median := none, minValue := none, maxValue := none,
            std := none, count := 0 }) := by
  refine ⟨?_, ?_, ?_⟩
  · have hnm : nonMissing [some 1, some 2, some 3, some 4, some 5]
        = ([1, 2, 3, 4, 5] : List ℚ) := rfl
    have hsort : List.insertionSort (· ≤ ·) ([1, 2, 3, 4, 5] : List ℚ)
        = [1, 2, 3, 4, 5] := by
      apply List.Sorted.insertionSort_eq
      simp [List.sorted_cons]
      norm_num
    have hvar : seriesVar [some 1, some 2, some 3, some 4, some 5] = some (5/2 : ℚ) := by
      rw [seriesVar]
      rw [hnm]
      norm_num [List.sum_cons]
    have hmean : seriesMean [some 1, some 2, some 3, some 4, some 5] = some 3 := by
      rw [seriesMean]
      norm_num [seriesCount, hnm, List.sum_cons]
    have hmed : seriesMedian [some 1, some 2, some 3, some 4, some 5] = some 3 := by
      rw [seriesMedian]
      rw [if_neg (by norm_num [seriesCount, hnm])]
      rw [medianOfList, hnm, hsort]
      norm_num
    have hmin : seriesMin [some 1, some 2, some 3, some 4, some 5] = some 1 := by
      rw [seriesMin, sortedVals, hnm, hsort]
      rfl
    have hmax : seriesMax [some 1, some 2, some 3, some 4, some 5] = some 5 := by
      rw [seriesMax, sortedVals, hnm, hsort]
      rfl
    have hstd : seriesStd [some 1, some 2, some 3, some 4, some 5]
        = some (Real.sqrt ((5/2 : ℚ) : ℝ)) := by
      rw [seriesStd, hvar]
      rfl
    unfold describeSeries
    rw [hmean, hmed, hmin, hmax, hstd]
    rfl
  · intro xs
    have key : nonMissing ((nonMissing xs).map some) = nonMissing xs := by
      simp [nonMissing]
    simp only [describeSeries, seriesMean, seriesMedian, seriesMin, seriesMax,
      seriesStd, seriesVar, seriesCount, sortedVals, key]
  · intro xs h
    have hnil : nonMissing xs = [] := by
      induction xs with
      | nil => rfl
      | cons a t ih =>
        have ha : a = none := h a (List.mem_cons_self a t)
        subst ha
        exact ih (fun x hx => h x (List.mem_cons_of_mem _ hx))
    simp only [describeSeries, seriesMean, seriesMedian, seriesMin, seriesMax,
      seriesStd, seriesVar, seriesCount, sortedVals, hnil]
    rfl

/-- Witness for C6 on a concrete all-missing column. -/
theorem C6_numeric_summary_witness :
    describeSeries [none, none]
      = { mean := none, median := none, minValue := none, maxValue := none,
          std := none, count := 0 } :=
  C6_numeric_summary.2.2 [none, none] (by simp)

/-- C3 counterexample: the aggregation selectbox offers neither `min` nor
`max`; the claimed six-function set does not match the code, which offers
only sum, mean, count and median. -/
theorem C3_counterexample :
    "min" ∉ agg_func_options.map Prod.snd ∧
    "max" ∉ agg_func_options.map Prod.snd ∧
    aggFuncOfName "min" = none ∧
    aggFuncOfName "max" = none ∧
    agg_func_options.map Prod.snd = ["sum", "mean", "count", "median"] := by
  refine ⟨?_, ?_, rfl, rfl, rfl⟩
  · decide
  · decide

/-- C3 (amended): the pivot aggregator can be any one of the four functions
sum, mean, count and median — each of those names is offered by the
selectbox and maps to an aggregation function — and the chosen aggregation
is applied to the value column within each nonempty group. -/
theorem C3_aggregator_options :
    (∀ s ∈ (["sum", "mean", "count", "median"] : List String),
      s ∈ agg_func_options.map Prod.snd ∧ (aggFuncOfName s).isSome) ∧
    (∀ (κ γ : Type) [DecidableEq κ] [DecidableEq γ]
      (data : List (PivotRow κ γ)) (agg : AggFunc) (r : κ) (c : γ),
      groupValues data r c ≠ [] →
      cellValue data agg r c = aggApply agg (groupValues data r c)) := by
  constructor
  · decide
  · intro κ γ _ _ data agg r c h
    unfold cellValue aggregateGroup
    rw [if_neg (by simpa using h)]
    rfl

/-- Witness for C3 (amended) on concrete rows: sum over the group of the
combination (1, 10). -/
theorem C3_aggregator_options_witness :
    cellValue pivotExample AggFunc.sum 1 10
      = aggApply AggFunc.sum (groupValues pivotExample 1 10) :=
  C3_aggregator_options.2 ℕ ℕ pivotExample AggFunc.sum 1 10 (by decide)

/-- C4: a key combination present in both the row-key and column-key domains
but matched by no data row gets the cell value zero — not a missing value —
for every aggregator, and such a `(key, 0)` cell really appears in the
pivot-table output. -/
theorem C4_zero_fill {κ γ : Type} [DecidableEq κ] [DecidableEq γ]
    (data : List (PivotRow κ γ)) (agg : AggFunc) (r : κ) (c : γ)
    (hr : r ∈ data.map PivotRow.rowKey) (hc : c ∈ data.map PivotRow.colKey)
    (hempty : groupValues data r c = []) :
    cellValue data agg r c = 0 ∧
    ∃ rowEntry ∈ pivot_table data agg, rowEntry.1 = r ∧ (c, (0 : ℚ)) ∈ rowEntry.2 := by
  have hcell : cellValue data agg r c = 0 := by
    unfold cellValue aggregateGroup
    rw [hempty]
    rfl
  refine ⟨hcell, ?_⟩
  refine ⟨(r, (firstUniques (data.map PivotRow.colKey)).map
    (fun c2 => (c2, cellValue data agg r c2))), ?_, rfl, ?_⟩
  · unfold pivot_table
    exact List.mem_map.mpr ⟨r, (mem_firstUniques _ r).mpr hr, rfl⟩
  · rw [← hcell]
    exact List.mem_map.mpr ⟨c, (mem_firstUniques _ c).mpr hc, rfl⟩

/-- Witness for C4 on concrete rows: the combination (1, 20) is in both key
domains but has no data row, and its mean cell is zero. -/
theorem C4_zero_fill_witness :
    cellValue pivotExample AggFunc.mean 1 20 = 0 ∧
    ∃ rowEntry ∈ pivot_table pivotExample AggFunc.mean,
      rowEntry.1 = 1 ∧ ((20 : ℕ), (0 : ℚ)) ∈ rowEntry.2 :=
  C4_zero_fill pivotExample AggFunc.mean 1 20 (by decide) (by decide) (by decide)

/-- C5: clicking the pivot button with an empty row selection or no value
column emits the inline warning, runs no computation and leaves the stored
pivot result and configuration unchanged. -/
theorem C5_pivot_validation (st : PivotState) (data : List (PivotRow String String))
    (index_cols column_cols : List String) (value_col : Option String)
    (agg_label : String)
    (h : index_cols = [] ∨ value_col = none) :
    pivotButtonClick st data index_cols column_cols value_col agg_label
      = (st, some UIMessage.warnRowsValuesRequired) := by
  unfold pivotButtonClick
  rcases h with h | h
  · subst h
    rw [if_neg (fun hc => hc.1 rfl)]
  · subst h
    rw [if_neg (fun hc => by simpa using hc.2)]

/-- Witness for C5: with rows unselected the stored pivot result survives and
only the warning is emitted. -/
theorem C5_pivot_validation_witness :
    pivotButtonClick ⟨some [("A", [("x", 3)])], none⟩ [] [] [] none "合計"
      = (⟨some [("A", [("x", 3)])], none⟩, some UIMessage.warnRowsValuesRequired) :=
  C5_pivot_validation ⟨some [("A", [("x", 3)])], none⟩ [] [] [] none "合計" (Or.inl rfl)
